import Mathlib

/-!
Shallow embedding of the AI_Agent repository's security-validation, caching,
response-generation and metrics code (src/src/ai_agent.py and
src/Agent/src/agent_core.py), together with theorems settling the frozen
claims about its natural-language specification.

Python strings are modelled as `List Char`; Python floats occurring in the
security scores, timestamps and durations are modelled as `ℚ` (every value
the code manipulates is an exact small rational, so no rounding is lost);
Python exceptions are modelled with an explicit error type and `Except`.
External collaborators (the `ollama` client, `hashlib.sha256`, the CPython
`compile` builtin, the filesystem behind the cache directory) are passed in
as explicit function parameters, so every repository-owned definition below
is a direct translation of the corresponding Python source.
-/

namespace AiAgent

/-- Python `str`, modelled as its list of characters. -/
abbrev Str := List Char

/-- `CONFIG["security"]["dangerous_patterns"]` from src/src/ai_agent.py. -/
def dangerous_patterns : List Str :=
  ["os.system".toList, "eval(".toList, "exec(".toList, "__import__".toList,
   "subprocess".toList, "open(".toList, "write(".toList, "chmod".toList]

/-- `CONFIG["security"]["min_acceptable_score"]` from src/src/ai_agent.py. -/
def min_acceptable_score : ℚ := 80

/-- `CONFIG["model"]` from src/src/ai_agent.py. -/
def config_model : String := "llama2"

/-- The `SecurityLevel` enum of src/src/ai_agent.py. -/
inductive SecurityLevel
  | high
  | medium
  | low
deriving DecidableEq, Repr

/-- The `SecurityContext` dataclass of src/src/ai_agent.py, after
`__post_init__` has run (so `vulnerabilities` is a list and `last_checked`
a timestamp, never `None`).  Timestamps are seconds as `ℚ`. -/
structure SecurityContext where
  sanitized : Bool
  validated : Bool
  security_score : ℚ
  vulnerabilities : List Str
  last_checked : ℚ
  security_level : SecurityLevel
deriving DecidableEq, Repr

/-- `SecurityContext.is_valid` of src/src/ai_agent.py:
`validated and (datetime.now() - last_checked).total_seconds() < 86400`.
`now` is the current time in seconds. -/
def SecurityContext.is_valid (ctx : SecurityContext) (now : ℚ) : Bool :=
  ctx.validated && decide (now - ctx.last_checked < 86400)

/-- `SecurityContext.update_security_level` of src/src/ai_agent.py, as the
pure function of the score and vulnerability list it computes:
`HIGH` if `score >= 90 and not vulnerabilities`, else `MEDIUM` if
`score >= 70`, else `LOW`. -/
def update_security_level (score : ℚ) (vulns : List Str) : SecurityLevel :=
  if 90 ≤ score ∧ vulns = [] then SecurityLevel.high
  else if 70 ≤ score then SecurityLevel.medium
  else SecurityLevel.low

/-- The `CodeResponse` dataclass of src/src/ai_agent.py.  The `metadata`
dict is an association list. -/
structure CodeResponse where
  code : Str
  explanation : String
  security_context : SecurityContext
  metadata : List (String × String)
  timestamp : ℚ
deriving DecidableEq

/-- `CodeResponse.is_secure` of src/src/ai_agent.py. -/
def CodeResponse.is_secure (r : CodeResponse) : Bool :=
  decide (min_acceptable_score ≤ r.security_context.security_score)
    && decide (r.security_context.security_level ≠ SecurityLevel.low)
    && decide (r.security_context.vulnerabilities = [])

/-- Python `str.replace(p, r)` on character lists: every non-overlapping
occurrence of `p`, scanning left to right, is replaced by `r`.  (For an
empty `p` the Python call site is never reached with one; we return the
string unchanged in that degenerate case.) -/
def replaceAll (p r : Str) : Str → Str
  | [] => []
  | c :: t =>
    if h : p ≠ [] ∧ p <+: (c :: t) then
      r ++ replaceAll p r ((c :: t).drop p.length)
    else
      c :: replaceAll p r t
termination_by s => s.length
decreasing_by
  · simp only [List.length_drop, List.length_cons]
    have hp : 0 < p.length := List.length_pos.mpr h.1
    omega
  · simp

/-- The redaction marker `f"# SECURITY REMOVED: {pattern}"` of
`SecurityManager.sanitize_code`. -/
def marker (p : Str) : Str := "# SECURITY REMOVED: ".toList ++ p

/-- `SecurityManager.sanitize_code` of src/src/ai_agent.py: each dangerous
pattern is replaced, in list order, by its redaction marker. -/
def sanitize_code (code : Str) : Str :=
  dangerous_patterns.foldl (fun s pat => replaceAll pat (marker pat) s) code

/-- `SecurityManager.validate_syntax` of src/src/ai_agent.py.  The CPython
`compile` builtin is an external collaborator, modelled as a function
`compileExc` returning `Except Unit Unit` (`.error` models a raised
`SyntaxError`); the `try`/`except SyntaxError` of the source maps the
outcome to a `Bool`. -/
def validate_syntax (compileExc : Str → Except Unit Unit) (code : Str) : Bool :=
  match compileExc code with
  | Except.ok _ => true
  | Except.error _ => false

/-- `SecurityManager.calculate_security_score` of src/src/ai_agent.py:
start at 100.0, subtract 20 for each dangerous pattern occurring as a
substring, return `max(0, score)`. -/
def calculate_security_score (code : Str) : ℚ :=
  max 0 (dangerous_patterns.foldl
    (fun score pat => if pat <:+: code then score - 20 else score) 100)

/-- Number of dangerous patterns occurring as a substring of `code`. -/
def penaltyCount (code : Str) : ℕ :=
  dangerous_patterns.countP (fun pat => decide (pat <:+: code))

/-- `SecurityManager.perform_security_checks` of src/src/ai_agent.py:
builds a default `SecurityContext` (empty vulnerabilities, `last_checked`
= now), sanitizes, validates syntax, scores, assigns the fields and calls
`update_security_level`, returning the context and the sanitized code. -/
def perform_security_checks (compileExc : Str → Except Unit Unit) (now : ℚ)
    (code : Str) : SecurityContext × Str :=
  let sanitized := sanitize_code code
  let valid := validate_syntax compileExc sanitized
  let score := calculate_security_score sanitized
  ({ sanitized := true
     validated := valid
     security_score := score
     vulnerabilities := []
     last_checked := now
     security_level := update_security_level score [] }, sanitized)

/-- Exceptions relevant to the orchestrator and cache paths.
`securityError` and `cacheError` are the two exception classes the source
defines; `jsonDecodeError` models the `json.JSONDecodeError` that
`json.load` raises on a file that is not valid JSON; `typeError` models
the stdlib `TypeError` (raised by `json.dump` on a value the default
encoder cannot serialize, and by `CodeResponse(**data)` when the decoded
JSON does not match the dataclass signature); `attributeError` models the
`AttributeError` raised by an attribute access on a plain dict;
`validationError` is modelled from the spec: the spec's error taxonomy
names a `ValidationError` for the no-content case, but no such class
exists anywhere in the repository. -/
inductive PyErr
  | securityError (msg : String)
  | cacheError (msg : String)
  | jsonDecodeError
  | typeError (msg : String)
  | attributeError (msg : String)
  | validationError (msg : String)
deriving DecidableEq, Repr

/-- A persisted cache file, classified by how
`CodeResponse(**json.load(f))` behaves on it:
* `corrupt` — not valid JSON (for example the truncated partial file a
  failed `json.dump` leaves behind): `json.load` raises
  `JSONDecodeError`;
* `mismatched` — valid JSON that does not match the dataclass signature
  (wrong top-level shape or keys): `CodeResponse(**data)` raises
  `TypeError`;
* `decoded r` — a valid JSON object with exactly the five dataclass
  keys, spelling the field values of the response `r` (only writable by
  hand: the program's own writer never completes, see
  `cache_response`).  `CodeResponse(**data)` then succeeds, but since
  `json.load` produces only dicts, lists, strings and numbers and the
  dataclass constructor performs no conversion, the reconstructed
  object's `security_context` is a plain dict, not a `SecurityContext`
  (see `DictResponse`). -/
inductive CacheFile
  | corrupt
  | mismatched
  | decoded (r : CodeResponse)
deriving DecidableEq

/-- The cache directory: filename (cache key) to file content, `none`
meaning no file exists for that key. -/
def Store := String → Option CacheFile

/-- `CacheManager.get_cache_key` of src/src/ai_agent.py.  `sha256hex` is
the external `hashlib.sha256(...).hexdigest()` collaborator. -/
def get_cache_key (sha256hex : String → String) (prompt : String) : String :=
  sha256hex prompt

/-- The object `CodeResponse(**json.load(f))` builds from a `decoded`
cache file: shaped like a `CodeResponse`, but its `security_context`
field holds the plain dict the JSON decoder produced.  `origin` records
which response's field values the file spelled. -/
structure DictResponse where
  origin : CodeResponse
deriving DecidableEq

/-- `CodeResponse.is_secure` (src/src/ai_agent.py:85-90) invoked on a
deserialized cache entry: the first conjunct evaluates
`self.security_context.security_score`, and `security_context` is a
plain dict, so the attribute access raises `AttributeError` — the method
never returns a boolean on these objects, which the `Empty` result type
records. -/
def DictResponse.is_secureExc (_ : DictResponse) : Except PyErr Empty :=
  Except.error (PyErr.attributeError "dict object has no attribute security_score")

/-- `CacheManager.get_cached_response` of src/src/ai_agent.py: if the
file for the key exists it is `json.load`ed and passed to
`CodeResponse(**data)`, otherwise `None` is returned.  There is no
`try`/`except` in the source, so the `JSONDecodeError` of a corrupt file
and the `TypeError` of a signature-mismatched one propagate to the
caller, and a decodable file yields the dict-carrying `DictResponse`. -/
def get_cached_response (sha256hex : String → String) (store : Store)
    (prompt : String) : Except PyErr (Option DictResponse) :=
  match store (get_cache_key sha256hex prompt) with
  | none => Except.ok none
  | some (CacheFile.decoded r) => Except.ok (some ⟨r⟩)
  | some CacheFile.mismatched =>
    Except.error (PyErr.typeError "CodeResponse() got an unexpected keyword argument")
  | some CacheFile.corrupt => Except.error PyErr.jsonDecodeError

/-- `CacheManager.cache_response` of src/src/ai_agent.py: opens the key's
file for writing (truncating any previous content) and runs
`json.dump(response.__dict__, f)`.  The dict's `code` and `explanation`
fields serialize, but `security_context` is a `SecurityContext` object,
which the default JSON encoder rejects, so the dump raises
`TypeError("Object of type SecurityContext is not JSON serializable")`
after the leading fields were already written; the `with` block closes
the file and the truncated, undecodable prefix remains on disk.  Every
call therefore raises, and the entry under the key becomes corrupt. -/
def cache_response (sha256hex : String → String) (store : Store)
    (prompt : String) (response : CodeResponse) : PyErr × Store :=
  (PyErr.typeError "Object of type SecurityContext is not JSON serializable",
   fun k =>
     if k = get_cache_key sha256hex prompt then some CacheFile.corrupt
     else store k)

/-- A concrete one-file cache directory whose single entry, under key
`"k"`, is corrupt (not valid JSON). -/
def corruptStore : Store :=
  fun k => if k = "k" then some CacheFile.corrupt else none

/-- The outcome of one `AIAgent.generate_response` call: the returned
response (the source's declared return type is `CodeResponse`) or the
raised exception, the cache directory afterwards, and whether the
external model client (`ollama.chat`) was invoked. -/
structure GenOutcome where
  result : Except PyErr CodeResponse
  newStore : Store
  clientCalled : Bool

/-- The path of `AIAgent.generate_response` past the cache check: call
the model client, reject empty content with
`SecurityError("No valid content received from Ollama.")`, run the
security checks, build the `CodeResponse` and call
`cache_response(prompt, code_response)`.  The cache write always raises
`TypeError` (see `cache_response`), the exception propagates, and the
source's final `return code_response` is never reached. -/
def generateFresh (sha256hex : String → String)
    (compileExc : Str → Except Unit Unit) (clientContent : String)
    (now : ℚ) (store : Store) (prompt : String) : GenOutcome :=
  if clientContent = "" then
    ⟨Except.error (PyErr.securityError "No valid content received from Ollama."),
     store, true⟩
  else
    let checks := perform_security_checks compileExc now clientContent.toList
    let response : CodeResponse :=
      { code := checks.2
        explanation := "AI-generated secure response"
        security_context := checks.1
        metadata := [("model", config_model)]
        timestamp := now }
    let written := cache_response sha256hex store prompt response
    ⟨Except.error written.1, written.2, true⟩

/-- `AIAgent.generate_response` of src/src/ai_agent.py.  `clientContent`
is the textual content of the external model client's reply for this
prompt (`response.get("message", {}).get("content", "")`); `compileExc`
the external `compile` builtin; `now` the current time.  The cache read
may raise (corrupt or mismatched file), and on an existing decodable
entry the guard `if cached_response and cached_response.is_secure():`
(line 169) calls `is_secure()` on the dict-carrying `DictResponse`,
which raises `AttributeError`; any of these exceptions propagates before
the model client is reached.  Only a missing entry proceeds to
`generateFresh`. -/
def generate_response (sha256hex : String → String)
    (compileExc : Str → Except Unit Unit) (clientContent : String)
    (now : ℚ) (store : Store) (prompt : String) : GenOutcome :=
  match get_cached_response sha256hex store prompt with
  | Except.error e => ⟨Except.error e, store, false⟩
  | Except.ok (some cached) =>
    match cached.is_secureExc with
    | Except.error e => ⟨Except.error e, store, false⟩
    | Except.ok b => b.elim
  | Except.ok none =>
    generateFresh sha256hex compileExc clientContent now store prompt

/-- A security context that is both secure (score 100, level HIGH, no
vulnerabilities) and fresh at time 0 (validated, last checked at 0). -/
def secureCtx : SecurityContext :=
  { sanitized := true
    validated := true
    security_score := 100
    vulnerabilities := []
    last_checked := 0
    security_level := SecurityLevel.high }

/-- A response carrying `secureCtx`: it satisfies `is_secure()` and its
context satisfies `is_valid` at time 0. -/
def secureResp : CodeResponse :=
  { code := "x = 1".toList
    explanation := "AI-generated secure response"
    security_context := secureCtx
    metadata := [("model", config_model)]
    timestamp := 0 }

/-- A cache directory whose file under key `"k"` is a hand-written valid
JSON object spelling the fields of `secureResp`. -/
def secureStore : Store :=
  fun k => if k = "k" then some (CacheFile.decoded secureResp) else none

/-- The `RequestMetrics` dataclass of src/Agent/src/agent_core.py. -/
structure RequestMetrics where
  start_time : ℚ
  end_time : Option ℚ
  duration : Option ℚ
  success : Bool
  error : Option String
deriving DecidableEq

/-- The `AgentMetrics` dataclass of src/Agent/src/agent_core.py. -/
structure AgentMetrics where
  total_requests : ℕ
  successful_requests : ℕ
  failed_requests : ℕ
  average_response_time : ℚ
  last_error : Option String
  last_activity : Option ℚ
  request_history : List RequestMetrics
deriving DecidableEq

/-- `AgentMetrics` with the dataclass field defaults. -/
def initMetrics : AgentMetrics :=
  { total_requests := 0
    successful_requests := 0
    failed_requests := 0
    average_response_time := 0
    last_error := none
    last_activity := none
    request_history := [] }

/-- `AgentMetrics.add_request` of src/Agent/src/agent_core.py: append to
history, bump `total_requests`; on success bump `successful_requests` and,
when a duration is recorded, fold it into the running average (first
success sets the average outright); on failure bump `failed_requests` and
record the error; finally set `last_activity` to
`metrics.end_time or metrics.start_time`. -/
def add_request (m : AgentMetrics) (r : RequestMetrics) : AgentMetrics :=
  let m1 := { m with
    request_history := m.request_history ++ [r]
    total_requests := m.total_requests + 1 }
  let m2 :=
    if r.success then
      let succ := m1.successful_requests + 1
      let m1s := { m1 with successful_requests := succ }
      match r.duration with
      | some d =>
        { m1s with average_response_time :=
            if succ = 1 then d
            else (m1s.average_response_time * ((succ : ℚ) - 1) + d) / (succ : ℚ) }
      | none => m1s
    else
      { m1 with
        failed_requests := m1.failed_requests + 1
        last_error := r.error }
  { m2 with last_activity := some (r.end_time.getD r.start_time) }

/-- The durations the running average is taken over: durations of the
successful requests, in order. -/
def successDurations (reqs : List RequestMetrics) : List ℚ :=
  reqs.filterMap (fun r => if r.success then r.duration else none)

/-! ## Helper lemmas about occurrences and `replaceAll` -/

/-- A list is an infix iff it is a prefix of some drop. -/
lemma infix_iff_drop (q s : Str) : q <:+: s ↔ ∃ i, q <+: s.drop i := by
  constructor
  · rintro ⟨u, v, rfl⟩
    exact ⟨u.length, by simpa [List.drop_left] using List.prefix_append q v⟩
  · rintro ⟨i, hq⟩
    exact hq.isInfix.trans (List.drop_suffix i s).isInfix

/-- Dropping the same count preserves the prefix relation. -/
lemma prefix_drop_of_prefix {q s : Str} (h : q <+: s) (k : ℕ) :
    q.drop k <+: s.drop k := by
  obtain ⟨u, rfl⟩ := h
  rw [List.drop_append_eq_append_drop]
  exact List.prefix_append _ _

/-- A prefix of a drop of `p` is an infix of `p`. -/
lemma infix_of_prefix_drop {q p : Str} {i : ℕ} (h : q <+: p.drop i) : q <:+: p :=
  h.isInfix.trans (List.drop_suffix i p).isInfix

/-- When `p` does not occur starting anywhere in the first `k` positions of
`s`, `replaceAll` leaves the first `k` characters untouched. -/
lemma replaceAll_take_drop (p r : Str) :
    ∀ (k : ℕ) (s : Str), (∀ j, j < k → ¬ p <+: s.drop j) →
      replaceAll p r s = s.take k ++ replaceAll p r (s.drop k) := by
  intro k
  induction k with
  | zero => intro s _; simp
  | succ k ih =>
    intro s hno
    cases s with
    | nil => simp [replaceAll]
    | cons c t =>
      have h0 : ¬ p <+: (c :: t) := by simpa using hno 0 (Nat.succ_pos k)
      rw [replaceAll, dif_neg (fun hc => h0 hc.2)]
      have ht := ih t (fun j hj => by simpa using hno (j + 1) (by omega))
      simp [ht]

/-- If the pattern occurs in `s`, then the replacement string occurs in
the output of `replaceAll`. -/
lemma repl_infix_replaceAll {p : Str} (r : Str) (hp : p ≠ []) :
    ∀ s : Str, p <:+: s → r <:+: replaceAll p r s := by
  have main : ∀ n (s : Str), s.length ≤ n → p <:+: s → r <:+: replaceAll p r s := by
    intro n
    induction n with
    | zero =>
      intro s hl hinf
      have hs : s = [] := List.eq_nil_of_length_eq_zero (Nat.le_zero.mp hl)
      subst hs
      exact absurd (List.eq_nil_of_infix_nil hinf) hp
    | succ n ih =>
      intro s hl hinf
      cases s with
      | nil => exact absurd (List.eq_nil_of_infix_nil hinf) hp
      | cons c t =>
        by_cases hc : p <+: (c :: t)
        · rw [replaceAll, dif_pos ⟨hp, hc⟩]
          exact (List.prefix_append r _).isInfix
        · rw [replaceAll, dif_neg (fun hcc => hc hcc.2)]
          obtain ⟨i, hpi⟩ := (infix_iff_drop p (c :: t)).mp hinf
          cases i with
          | zero => exact absurd (by simpa using hpi) hc
          | succ j =>
            have hpt : p <:+: t := (infix_iff_drop p t).mpr ⟨j, by simpa using hpi⟩
            have hlt : t.length ≤ n := by simpa using hl
            exact List.infix_cons (ih t hlt hpt)
  exact fun s => main s.length s le_rfl

/-- Non-interference of two patterns: neither is a substring of the other,
no nonempty proper suffix of one is a prefix of the other.  Under this
condition occurrences of `p` and `q` in any string never overlap. -/
def noConflict (p q : Str) : Prop :=
  ¬ q <:+: p ∧ ¬ p <:+: q ∧
  (∀ k, k < p.length → 0 < k → ¬ p.drop k <+: q) ∧
  (∀ k, k < q.length → 0 < k → ¬ q.drop k <+: p)

instance noConflictDec (p q : Str) : Decidable (noConflict p q) := by
  unfold noConflict
  infer_instance

lemma noConflict.left_ne_nil {p q : Str} (h : noConflict p q) : p ≠ [] :=
  fun hp => h.2.1 (hp ▸ List.nil_infix)

lemma noConflict.right_ne_nil {p q : Str} (h : noConflict p q) : q ≠ [] :=
  fun hq => h.1 (hq ▸ List.nil_infix)

/-- Replacing a non-interfering pattern `p` preserves every occurrence of
`q` (whatever the replacement string is). -/
lemma infix_replaceAll {p q : Str} (r : Str) (h : noConflict p q) :
    ∀ s : Str, q <:+: s → q <:+: replaceAll p r s := by
  have hp : p ≠ [] := h.left_ne_nil
  have hq : q ≠ [] := h.right_ne_nil
  have main : ∀ n (s : Str), s.length ≤ n → q <:+: s → q <:+: replaceAll p r s := by
    intro n
    induction n with
    | zero =>
      intro s hl hinf
      have hs : s = [] := List.eq_nil_of_length_eq_zero (Nat.le_zero.mp hl)
      subst hs
      exact absurd (List.eq_nil_of_infix_nil hinf) hq
    | succ n ih =>
      intro s hl hinf
      cases s with
      | nil => exact absurd (List.eq_nil_of_infix_nil hinf) hq
      | cons c t =>
        obtain ⟨i, hqi⟩ := (infix_iff_drop q (c :: t)).mp hinf
        by_cases hc : p <+: (c :: t)
        · rw [replaceAll, dif_pos ⟨hp, hc⟩]
          have hge : p.length ≤ i := by
            by_contra hlt
            push_neg at hlt
            rcases Nat.eq_zero_or_pos i with h0 | hpos
            · subst h0
              simp only [List.drop_zero] at hqi
              rcases List.prefix_or_prefix_of_prefix hqi hc with hqp | hpq
              · exact h.1 hqp.isInfix
              · exact h.2.1 hpq.isInfix
            · have h1 : p.drop i <+: (c :: t).drop i := prefix_drop_of_prefix hc i
              rcases List.prefix_or_prefix_of_prefix hqi h1 with hqp | hpq
              · exact h.1 (infix_of_prefix_drop hqp)
              · exact h.2.2.1 i hlt hpos hpq
          have hq' : q <:+: (c :: t).drop p.length := by
            refine (infix_iff_drop _ _).mpr ⟨i - p.length, ?_⟩
            rw [List.drop_drop, Nat.add_sub_cancel' hge]
            exact hqi
          have hlen : ((c :: t).drop p.length).length ≤ n := by
            have hppos : 0 < p.length := List.length_pos.mpr hp
            simp only [List.length_drop, List.length_cons]
            simp only [List.length_cons] at hl
            omega
          exact (ih _ hlen hq').trans (List.suffix_append r _).isInfix
        · cases i with
          | zero =>
            simp only [List.drop_zero] at hqi
            have hno : ∀ j, j < q.length → ¬ p <+: (c :: t).drop j := by
              intro j hj hpj
              rcases Nat.eq_zero_or_pos j with h0 | hpos
              · subst h0
                simp only [List.drop_zero] at hpj
                exact hc hpj
              · have h1 : q.drop j <+: (c :: t).drop j := prefix_drop_of_prefix hqi j
                rcases List.prefix_or_prefix_of_prefix hpj h1 with hpq | hqp
                · exact h.2.1 (infix_of_prefix_drop hpq)
                · exact h.2.2.2 j hj hpos hqp
            rw [replaceAll_take_drop p r q.length (c :: t) hno,
              ← List.prefix_iff_eq_take.mp hqi]
            exact (List.prefix_append q _).isInfix
          | succ j =>
            rw [replaceAll, dif_neg (fun hcc => hc hcc.2)]
            have hqt : q <:+: t := (infix_iff_drop q t).mpr ⟨j, by simpa using hqi⟩
            have hlt : t.length ≤ n := by simpa using hl
            exact List.infix_cons (ih t hlt hqt)
  exact fun s => main s.length s le_rfl

/-- Once `p` occurs in the working string, it still occurs after the whole
sanitizer fold, provided every pattern in the list is `p` itself or does
not interfere with `p`: the redaction marker for `p` re-embeds `p`, and
replacing a non-interfering pattern cannot destroy an occurrence of `p`. -/
lemma foldl_sanitize_preserves {p : Str} (hp : p ≠ []) :
    ∀ (L : List Str) (s : Str),
      (∀ pat ∈ L, pat = p ∨ noConflict pat p) →
      p <:+: s →
      p <:+: L.foldl (fun acc pat => replaceAll pat (marker pat) acc) s := by
  intro L
  induction L with
  | nil => intro s _ hs; simpa using hs
  | cons pat L ih =>
    intro s hL hs
    simp only [List.foldl_cons]
    apply ih _ (fun x hx => hL x (List.mem_cons_of_mem _ hx))
    rcases hL pat (List.mem_cons_self ..) with heq | hnc
    · subst heq
      have hm : marker pat <:+: replaceAll pat (marker pat) s :=
        repl_infix_replaceAll (marker pat) hp s hs
      exact ((List.suffix_append _ pat).isInfix).trans hm
    · exact infix_replaceAll _ hnc s hs

/-- The eight dangerous patterns are nonempty and pairwise
non-interfering: distinct patterns never overlap in any string. -/
lemma patterns_pairwise :
    ∀ p ∈ dangerous_patterns,
      p ≠ [] ∧ ∀ pat ∈ dangerous_patterns, pat = p ∨ noConflict pat p := by
  decide

/-- A dangerous pattern occurring in the raw text still occurs after
sanitization. -/
lemma sanitize_preserves {p : Str} (hmem : p ∈ dangerous_patterns) {raw : Str}
    (hocc : p <:+: raw) : p <:+: sanitize_code raw := by
  obtain ⟨hp, hall⟩ := patterns_pairwise p hmem
  exact foldl_sanitize_preserves hp dangerous_patterns raw hall hocc

/-- Unrolling the scoring fold: each pattern present subtracts 20. -/
lemma score_foldl (code : Str) : ∀ (L : List Str) (sc : ℚ),
    L.foldl (fun a pat => if pat <:+: code then a - 20 else a) sc
      = sc - 20 * L.countP (fun pat => decide (pat <:+: code)) := by
  intro L
  induction L with
  | nil => intro sc; simp
  | cons pat L ih =>
    intro sc
    by_cases hc : pat <:+: code <;>
      simp [List.foldl_cons, hc, ih, List.countP_cons] <;> push_cast <;> ring

/-- Closed form of `calculate_security_score`. -/
lemma score_eq (code : Str) :
    calculate_security_score code = max 0 (100 - 20 * (penaltyCount code : ℚ)) := by
  unfold calculate_security_score penaltyCount
  rw [score_foldl]

/-! ## Claim theorems -/

/-- Claim C4: for every security score `s` in `[0,100]` and every
vulnerabilities list `v`, the classify step assigns `HIGH` iff `s ≥ 90`
and `v` is empty; `MEDIUM` iff `s ≥ 70` and not the `HIGH` condition; and
`LOW` iff `s < 70` (covering all boundary scores and empty/non-empty
vulnerability lists). -/
theorem classify_level_iff (s : ℚ) (v : List Str) (h0 : 0 ≤ s) (h1 : s ≤ 100) :
    (update_security_level s v = SecurityLevel.high ↔ 90 ≤ s ∧ v = []) ∧
    (update_security_level s v = SecurityLevel.medium ↔
      70 ≤ s ∧ ¬(90 ≤ s ∧ v = [])) ∧
    (update_security_level s v = SecurityLevel.low ↔ s < 70) := by
  unfold update_security_level
  split_ifs with hA hB
  · refine ⟨by simp [hA], by simp [hA], by simp; linarith [hA.1]⟩
  · refine ⟨by simp [hA], by simp [hA, hB], by simp; linarith⟩
  · push_neg at hB
    refine ⟨by simp; intro hcon; exfalso; linarith, by simp; intro hcon; linarith,
      by simp [hB]⟩

/-- Witness for C4 at `s = 90`, `v = []`. -/
theorem classify_level_iff_witness : update_security_level 90 [] = SecurityLevel.high :=
  ((classify_level_iff 90 [] (by norm_num) (by norm_num)).1).mpr ⟨by norm_num, rfl⟩

/-- Claim C5: for every sanitized text, the scoring step returns
`max(0, 100 − 20 · penaltyCount)`, deducting the fixed 20 penalty for
every denylisted pattern found as a substring, floored at 0. -/
theorem score_is_clamped_deduction (code : Str) :
    calculate_security_score code = max 0 (100 - 20 * (penaltyCount code : ℚ)) :=
  score_eq code

/-- Claim C6: the `SecurityContext` produced by `perform_security_checks`
always has an empty vulnerabilities list, so the vulnerability-emptiness
conjunct of the `HIGH` classification is vacuous: the pipeline's level is
`HIGH` exactly when its score is at least 90. -/
theorem pipeline_vulnerabilities_empty (compileExc : Str → Except Unit Unit)
    (now : ℚ) (code : Str) :
    (perform_security_checks compileExc now code).1.vulnerabilities = [] ∧
    ((perform_security_checks compileExc now code).1.security_level = SecurityLevel.high ↔
      90 ≤ (perform_security_checks compileExc now code).1.security_score) := by
  refine ⟨rfl, ?_⟩
  have hs : (perform_security_checks compileExc now code).1.security_score =
      calculate_security_score (sanitize_code code) := rfl
  have hl : (perform_security_checks compileExc now code).1.security_level =
      update_security_level (calculate_security_score (sanitize_code code)) [] := rfl
  rw [hs, hl]
  unfold update_security_level
  split_ifs with hA hB <;> simp_all

/-- Claim C8: `perform_security_checks` is a total operation: it always
returns the sanitized code together with a fully-populated
`SecurityContext`, and a parse failure of the external `compile` (the
only exception source in the step, caught by the `try`/`except`
`SyntaxError` of `validate_syntax`) is recorded as `validated = false`
rather than surfaced. -/
theorem validate_total (compileExc : Str → Except Unit Unit) (now : ℚ) (code : Str) :
    (perform_security_checks compileExc now code).2 = sanitize_code code ∧
    (perform_security_checks compileExc now code).1.sanitized = true ∧
    (perform_security_checks compileExc now code).1.last_checked = now ∧
    (perform_security_checks compileExc now code).1.security_score =
      calculate_security_score (sanitize_code code) ∧
    (perform_security_checks compileExc now code).1.security_level =
      update_security_level (calculate_security_score (sanitize_code code)) [] ∧
    (∀ e, compileExc (sanitize_code code) = Except.error e →
      (perform_security_checks compileExc now code).1.validated = false) := by
  refine ⟨rfl, rfl, rfl, rfl, rfl, ?_⟩
  intro e he
  show validate_syntax compileExc (sanitize_code code) = false
  unfold validate_syntax
  rw [he]

/-- Witness for C8: a compile oracle that always raises a syntax error
yields `validated = false`. -/
theorem validate_total_witness :
    (perform_security_checks (fun _ => Except.error ()) 0 "if".toList).1.validated = false :=
  (validate_total (fun _ => Except.error ()) 0 "if".toList).2.2.2.2.2 () rfl

/-- Claim C7: every denylisted pattern occurring in the raw input still
occurs in the sanitized output (the redaction marker embeds the removed
pattern verbatim), so the score of the sanitized text deducts 20 for each
distinct pattern that occurred in the raw input. -/
theorem sanitize_keeps_patterns (raw : Str) :
    (∀ p ∈ dangerous_patterns, p <:+: raw → p <:+: sanitize_code raw) ∧
    calculate_security_score (sanitize_code raw) ≤
      max 0 (100 - 20 * (penaltyCount raw : ℚ)) := by
  constructor
  · exact fun p hm ho => sanitize_preserves hm ho
  · rw [score_eq]
    have hcount : penaltyCount raw ≤ penaltyCount (sanitize_code raw) := by
      unfold penaltyCount
      refine List.countP_mono_left (fun p hm => ?_)
      simp only [decide_eq_true_eq]
      exact fun hcc => sanitize_preserves hm hcc
    have hc : (penaltyCount raw : ℚ) ≤ (penaltyCount (sanitize_code raw) : ℚ) := by
      exact_mod_cast hcount
    exact max_le_max le_rfl (by linarith)

/-- Witness for C7: the pattern `eval(` occurs in `eval(2+2)` and still
occurs in its sanitized form. -/
theorem sanitize_keeps_patterns_witness :
    "eval(".toList <:+: sanitize_code "eval(2+2)".toList :=
  (sanitize_keeps_patterns "eval(2+2)".toList).1 "eval(".toList (by decide) (by decide)

/-- Claim C2 (code bug): `put` never persists an entry.  For every
prompt, cache directory and response, `cache_response` raises
`TypeError("Object of type SecurityContext is not JSON serializable")`
(the `json.dump` of `response.__dict__` cannot serialize the
`SecurityContext`/`datetime` fields), the key's file is left as a
truncated, undecodable prefix, and a subsequent `get` on the prompt
raises `JSONDecodeError` instead of returning the stored response —
`put(p, r); get(p) == r` fails for every input. -/
theorem cache_put_always_fails (sha256hex : String → String) (store : Store)
    (prompt : String) (response : CodeResponse) :
    (cache_response sha256hex store prompt response).1 =
      PyErr.typeError "Object of type SecurityContext is not JSON serializable" ∧
    (cache_response sha256hex store prompt response).2 (get_cache_key sha256hex prompt) =
      some CacheFile.corrupt ∧
    get_cached_response sha256hex (cache_response sha256hex store prompt response).2
        prompt = Except.error PyErr.jsonDecodeError := by
  refine ⟨rfl, ?_, ?_⟩
  · unfold cache_response
    simp
  · unfold get_cached_response cache_response
    simp

/-- Counterexample to claim C9: a corrupt persisted entry makes `get`
raise the `json.load` deserialization error instead of returning the
cache-miss result `None`. -/
theorem corrupt_get_raises_cex :
    get_cached_response (fun _ => "k") corruptStore "p" =
      Except.error PyErr.jsonDecodeError ∧
    get_cached_response (fun _ => "k") corruptStore "p" ≠ Except.ok none := by
  refine ⟨rfl, ?_⟩
  intro hcontra
  rw [show get_cached_response (fun _ => "k") corruptStore "p" =
    Except.error PyErr.jsonDecodeError from rfl] at hcontra
  exact Except.noConfusion hcontra

/-- Claim C9, amended: on an existing but corrupt entry, `get` propagates
the deserialization failure to the caller (there is no `try`/`except`
around `json.load`); only an absent entry yields the miss result `None`. -/
theorem corrupt_get_raises (sha256hex : String → String) (store : Store)
    (prompt : String) :
    (store (get_cache_key sha256hex prompt) = some CacheFile.corrupt →
      get_cached_response sha256hex store prompt = Except.error PyErr.jsonDecodeError) ∧
    (store (get_cache_key sha256hex prompt) = none →
      get_cached_response sha256hex store prompt = Except.ok none) := by
  constructor <;> intro hentry <;> unfold get_cached_response <;> rw [hentry]

/-- Witness for the amended C9 on a concrete corrupt store. -/
theorem corrupt_get_raises_witness :
    get_cached_response (fun _ => "k") corruptStore "p" =
      Except.error PyErr.jsonDecodeError :=
  (corrupt_get_raises (fun _ => "k") corruptStore "p").1 rfl

/-! ## Orchestrator lemmas and claims C1 and C3 -/

/-- Both branches of `generateFresh` invoke the model client. -/
lemma generateFresh_clientCalled (sha256hex : String → String)
    (compileExc : Str → Except Unit Unit) (content : String) (now : ℚ)
    (store : Store) (prompt : String) :
    (generateFresh sha256hex compileExc content now store prompt).clientCalled = true := by
  unfold generateFresh
  split <;> rfl

/-- `generateFresh` on empty model content: the `SecurityError` is raised
before any cache write. -/
lemma generateFresh_empty (sha256hex : String → String)
    (compileExc : Str → Except Unit Unit) (now : ℚ) (store : Store) (prompt : String) :
    generateFresh sha256hex compileExc "" now store prompt =
      ⟨Except.error (PyErr.securityError "No valid content received from Ollama."),
       store, true⟩ := by
  unfold generateFresh
  simp

/-- `generateFresh` on nonempty model content reaches the cache write,
which raises `TypeError` and corrupts the prompt's entry; generation
aborts without returning the built response. -/
lemma generateFresh_nonempty (sha256hex : String → String)
    (compileExc : Str → Except Unit Unit) (content : String) (now : ℚ)
    (store : Store) (prompt : String) (h : content ≠ "") :
    (generateFresh sha256hex compileExc content now store prompt).result =
      Except.error
        (PyErr.typeError "Object of type SecurityContext is not JSON serializable") ∧
    (generateFresh sha256hex compileExc content now store prompt).newStore
        (get_cache_key sha256hex prompt) = some CacheFile.corrupt := by
  unfold generateFresh
  rw [if_neg h]
  exact ⟨rfl, by simp [cache_response]⟩

/-- Every `generate_response` call either never invokes the client or is
literally a `generateFresh` call. -/
lemma generate_cases (sha256hex : String → String)
    (compileExc : Str → Except Unit Unit) (content : String) (now : ℚ)
    (store : Store) (prompt : String) :
    (generate_response sha256hex compileExc content now store prompt).clientCalled = false ∨
    generate_response sha256hex compileExc content now store prompt =
      generateFresh sha256hex compileExc content now store prompt := by
  unfold generate_response
  cases get_cached_response sha256hex store prompt with
  | error e => exact Or.inl rfl
  | ok o =>
    cases o with
    | none => exact Or.inr rfl
    | some cached => exact Or.inl rfl

/-- Claim C1 (code bug): a persisted cache entry spelling a response that
is both `is_secure()` and fresh (`is_valid` at the current time) does not
produce a cache hit: `generate_response` deserializes the entry with a
dict-typed `security_context`, the `is_secure()` call of line 169 raises
`AttributeError`, and the call aborts without returning the cached
response and without invoking the model client.  (The freshness conjunct
of the claim, `SecurityContext.is_valid`, is dead code — no caller
exists.) -/
theorem cached_secure_fresh_entry_raises :
    secureResp.is_secure = true ∧
    secureResp.security_context.is_valid 0 = true ∧
    (generate_response (fun _ => "k") (fun _ => Except.ok ()) "c" 0
        secureStore "p").result =
      Except.error (PyErr.attributeError "dict object has no attribute security_score") ∧
    (generate_response (fun _ => "k") (fun _ => Except.ok ()) "c" 0
        secureStore "p").clientCalled = false := by
  refine ⟨rfl, ?_, rfl, rfl⟩
  show (secureCtx.validated && decide ((0 : ℚ) - secureCtx.last_checked < 86400)) = true
  norm_num [secureCtx]

/-- Counterexample to claim C3: on empty model content the code raises
`SecurityError("No valid content received from Ollama.")`, not a
`ValidationError("no content")` — no `ValidationError` class exists in
the repository.  Moreover empty content is not the only abort condition:
the same call with nonempty content also aborts, with the `TypeError`
the cache write raises, so no artifact (secure or insecure) is ever
returned. -/
theorem empty_content_error_type_cex :
    (generate_response (fun _ => "k") (fun _ => Except.ok ()) "" 0
        (fun _ => none) "p").result =
      Except.error (PyErr.securityError "No valid content received from Ollama.") ∧
    (generate_response (fun _ => "k") (fun _ => Except.ok ()) "" 0
        (fun _ => none) "p").result ≠
      Except.error (PyErr.validationError "no content") ∧
    (generate_response (fun _ => "k") (fun _ => Except.ok ()) "c" 0
        (fun _ => none) "p").result =
      Except.error
        (PyErr.typeError "Object of type SecurityContext is not JSON serializable") := by
  refine ⟨rfl, ?_, rfl⟩
  intro hcon
  rw [show (generate_response (fun _ => "k") (fun _ => Except.ok ()) "" 0
      (fun _ => none) "p").result =
    Except.error (PyErr.securityError "No valid content received from Ollama.")
    from rfl] at hcon
  injection hcon with hcon'
  exact PyErr.noConfusion hcon'

/-- Claim C3, amended: when `generate_response` reaches the model client
and the reply content is empty, it fails with
`SecurityError("No valid content received from Ollama.")` — not with the
spec's `ValidationError`, which does not exist — and no cache entry is
written for that prompt.  This is not the only abort condition: with
nonempty content generation proceeds past the security checks but then
aborts with `TypeError` when `cache_response` tries to serialize the
response, corrupting the prompt's cache entry, so no artifact, secure or
insecure, is ever returned. -/
theorem empty_content_aborts (sha256hex : String → String)
    (compileExc : Str → Except Unit Unit) (content : String) (now : ℚ)
    (store : Store) (prompt : String) :
    ((generate_response sha256hex compileExc content now store prompt).clientCalled = true →
      content = "" →
      (generate_response sha256hex compileExc content now store prompt).result =
        Except.error (PyErr.securityError "No valid content received from Ollama.") ∧
      (generate_response sha256hex compileExc content now store prompt).newStore = store) ∧
    ((generate_response sha256hex compileExc content now store prompt).clientCalled = true →
      content ≠ "" →
      (generate_response sha256hex compileExc content now store prompt).result =
        Except.error
          (PyErr.typeError "Object of type SecurityContext is not JSON serializable") ∧
      (generate_response sha256hex compileExc content now store prompt).newStore
          (get_cache_key sha256hex prompt) = some CacheFile.corrupt) := by
  rcases generate_cases sha256hex compileExc content now store prompt with hcc | hg
  · constructor
    · intro hc
      rw [hcc] at hc
      exact absurd hc (by simp)
    · intro hc
      rw [hcc] at hc
      exact absurd hc (by simp)
  · rw [hg]
    constructor
    · intro _ hempty
      subst hempty
      rw [generateFresh_empty]
      exact ⟨rfl, rfl⟩
    · intro _ hne
      exact generateFresh_nonempty sha256hex compileExc content now store prompt hne

/-- Witness for the amended C3 at a concrete empty-content call. -/
theorem empty_content_aborts_witness :
    (generate_response (fun _ => "k") (fun _ => Except.ok ()) "" 0
        (fun _ => none) "p").result =
      Except.error (PyErr.securityError "No valid content received from Ollama.") :=
  ((empty_content_aborts (fun _ => "k") (fun _ => Except.ok ()) "" 0
      (fun _ => none) "p").1 rfl rfl).1

/-! ## Metrics lemmas and claim C10 -/

/-- A failed request changes neither the successful-request count nor the
running average. -/
lemma add_request_failure (m : AgentMetrics) (r : RequestMetrics)
    (h : r.success = false) :
    (add_request m r).successful_requests = m.successful_requests ∧
    (add_request m r).average_response_time = m.average_response_time := by
  simp [add_request, h]

/-- A successful request with a recorded duration bumps the successful
count. -/
lemma add_request_success_count (m : AgentMetrics) (r : RequestMetrics) (d : ℚ)
    (h : r.success = true) (hd : r.duration = some d) :
    (add_request m r).successful_requests = m.successful_requests + 1 := by
  simp [add_request, h, hd]

/-- The incremental update of a successful request keeps the running
average equal to the mean of all durations seen so far. -/
lemma add_request_success_avg (m : AgentMetrics) (r : RequestMetrics) (d : ℚ)
    (ds : List ℚ) (h : r.success = true) (hd : r.duration = some d)
    (hn : m.successful_requests = ds.length)
    (havg : ds ≠ [] → m.average_response_time = ds.sum / ds.length) :
    (add_request m r).average_response_time = (ds ++ [d]).sum / (ds ++ [d]).length := by
  rcases eq_or_ne ds [] with hds | hds
  · subst hds
    simp only [List.length_nil] at hn
    simp [add_request, h, hd, hn]
  · have hlen : ds.length ≠ 0 := fun hc => hds (List.length_eq_zero.mp hc)
    have hlenq : (ds.length : ℚ) ≠ 0 := Nat.cast_ne_zero.mpr hlen
    have h2 := havg hds
    simp [add_request, h, hd, hn, hlen]
    rw [h2]
    field_simp

/-- Folding `add_request` keeps `successful_requests` equal to the number
of completed successful durations and the running average equal to their
mean. -/
lemma metrics_foldl (reqs : List RequestMetrics) :
    ∀ (m : AgentMetrics) (ds : List ℚ),
      (∀ r ∈ reqs, r.success = true → (r.duration).isSome) →
      m.successful_requests = ds.length →
      (ds ≠ [] → m.average_response_time = ds.sum / ds.length) →
      (reqs.foldl add_request m).successful_requests =
        (ds ++ successDurations reqs).length ∧
      (ds ++ successDurations reqs ≠ [] →
        (reqs.foldl add_request m).average_response_time =
          (ds ++ successDurations reqs).sum / (ds ++ successDurations reqs).length) := by
  induction reqs with
  | nil =>
    intro m ds _ h1 h2
    simpa [successDurations] using ⟨h1, h2⟩
  | cons r rest ih =>
    intro m ds hdur h1 h2
    cases hrs : r.success with
    | false =>
      have hstep := add_request_failure m r hrs
      have hsd : successDurations (r :: rest) = successDurations rest := by
        simp [successDurations, hrs]
      rw [List.foldl_cons, hsd]
      exact ih (add_request m r) ds
        (fun x hx => hdur x (List.mem_cons_of_mem _ hx))
        (hstep.1.trans h1) (fun hne => hstep.2.trans (h2 hne))
    | true =>
      obtain ⟨d, hd⟩ := Option.isSome_iff_exists.mp
        (hdur r (List.mem_cons_self ..) hrs)
      have hsd : successDurations (r :: rest) = d :: successDurations rest := by
        simp [successDurations, hrs, hd]
      have hsucc := add_request_success_count m r d hrs hd
      have havg := add_request_success_avg m r d ds hrs hd h1 h2
      have happ : ds ++ successDurations (r :: rest) =
          (ds ++ [d]) ++ successDurations rest := by
        rw [hsd, List.append_assoc]
        rfl
      rw [List.foldl_cons, happ]
      refine ih (add_request m r) (ds ++ [d])
        (fun x hx => hdur x (List.mem_cons_of_mem _ hx)) ?_ (fun _ => havg)
      rw [hsucc, h1]
      simp

/-- Claim C10: after any sequence of requests in which every successful
request carries a recorded duration, interleaved with arbitrarily many
failures, the resulting `average_response_time` equals the mean of the
successful durations, maintained by the incremental update over
successful requests only. -/
theorem metrics_average_is_mean (reqs : List RequestMetrics)
    (hdur : ∀ r ∈ reqs, r.success = true → (r.duration).isSome)
    (hne : successDurations reqs ≠ []) :
    (reqs.foldl add_request initMetrics).average_response_time =
      (successDurations reqs).sum / (successDurations reqs).length := by
  have h := metrics_foldl reqs initMetrics [] hdur rfl (fun hc => absurd rfl hc)
  simpa using h.2 (by simpa using hne)

/-- Witness for C10: two successes (durations 2 and 4) around one failure
yield an average of 3. -/
theorem metrics_average_is_mean_witness :
    (([⟨0, some 1, some 2, true, none⟩,
       ⟨1, none, none, false, some "boom"⟩,
       ⟨2, some 3, some 4, true, none⟩] : List RequestMetrics).foldl
        add_request initMetrics).average_response_time = 3 := by
  rw [metrics_average_is_mean _ (by decide) (by decide)]
  norm_num [successDurations, List.filterMap]

end AiAgent
